import Mathlib

/-!
Verification of the interactive move controller in `src/gui/index.js` of
tonnetto-chess-ts.  JavaScript strings are modelled as `List Char`; the
chess engine collaborator (`ChessEngineAPI`, imported from a bundle that is
not part of this repository) is modelled as a pair of functions over FEN
strings, exactly the stateless functional interface described in the spec
(`apply(fen, move) → fen`, `isOver(fen) → status`).  The mutable `state`
object of the GUI is modelled as the structure `GuiState`; every DOM-level
event handler becomes a pure function from a state (plus the event datum)
to a new state together with the list of messages posted to the chess
worker.
-/

set_option maxRecDepth 8000

/-- Convert a Lean string literal to the `List Char` model of JS strings. -/
def str (s : String) : List Char := s.toList

/-- Accumulator-passing worker for `splitOnChar`. -/
def splitOnCharAux (sep : Char) : List Char → List Char → List (List Char)
  | [], acc => [acc.reverse]
  | c :: cs, acc =>
    if c = sep then acc.reverse :: splitOnCharAux sep cs []
    else splitOnCharAux sep cs (c :: acc)

/-- JS `s.split(sep)` for a single-character separator: always returns at
least one piece, and empty pieces between adjacent separators. -/
def splitOnChar (sep : Char) (s : List Char) : List (List Char) :=
  splitOnCharAux sep s []

/-- Numeric value of a digit character, as produced by JS `parseInt(d, 10)`
on a one-character string. -/
def digitVal (c : Char) : Nat := c.toNat - '0'.toNat

/-- Expansion of one FEN rank, from line 54 of `src/gui/index.js`:
`row.replace(/\d/g, (match) => '0'.repeat(parseInt(match, 10)))` — every
digit *d* is replaced by *d* copies of the empty marker `'0'`, every other
character is kept. -/
def expandRow : List Char → List Char
  | [] => []
  | c :: cs => (if c.isDigit then List.replicate (digitVal c) '0' else [c]) ++ expandRow cs

/-- Parsing of a FEN position field, lines 50–57 of `src/gui/index.js`:
split on `'/'`, expand the digits of each rank, and reverse the rank order
so that row 0 is rank 1. -/
def parsePositionField (field : List Char) : List (List Char) :=
  ((splitOnChar '/' field).map expandRow).reverse

/-- `transformFenToPositionArray` from lines 49–58 of `src/gui/index.js`:
take the first space-separated field of the FEN and parse it. -/
def transformFenToPositionArray (fen : List Char) : List (List Char) :=
  parsePositionField ((splitOnChar ' ' fen).headD [])

/-- Board coordinate: `file` 0–7 stands for files a–h, `rank` 0–7 stands
for ranks 1–8 (so `rank` is directly the row index used by the rendered
grid, `position[row-1]`). -/
structure Coord where
  file : Fin 8
  rank : Fin 8
deriving DecidableEq

/-- File letters used by `renderBoard` (line 67). -/
def fileChars : List Char := str "abcdefgh"

/-- Rank digits of the rendered coordinates. -/
def rankChars : List Char := str "12345678"

/-- The `data-coordinate` string of a square, e.g. `"e2"` (line 81). -/
def coordStr (c : Coord) : List Char :=
  [fileChars.getD c.file.val 'a', rankChars.getD c.rank.val '1']

/-- Functional model of the engine collaborator (spec §6): the controller
constructs a fresh engine per call from the session FEN, so
`applyMove fen mv` is the FEN returned by `getFen()` after
`engine.applyMove(mv)` on an engine seeded with `fen`, and `isGameOver fen`
is the result of `engine.isGameOver()` on an engine holding `fen`. -/
structure ChessEngineAPI where
  applyMove : List Char → List Char → List Char
  isGameOver : List Char → List Char

/-- Message posted to the chess worker by `makeComputerMove`
(lines 187–191): the current FEN and the depth looked up from the
difficulty table.  `depth := none` models the JS `undefined` produced by a
failed lookup (which `JSON.stringify` then omits from the serialized
request). -/
structure SearchMsg where
  fen : List Char
  depth : Option Nat
deriving DecidableEq

/-- The mutable `state` object of the GUI (lines 8–16), together with the
set of squares currently carrying the `selected-square` CSS class
(`highlighted`), which the handlers toggle. -/
structure GuiState where
  gameState : List Char
  selected : Option Coord
  fen : List Char
  playerColour : List Char
  difficulty : Nat
  pieceSet : List Char
  boardTheme : List Char
  highlighted : List Coord
deriving DecidableEq

/-- Initial value of the `state` object, lines 8–16 of `src/gui/index.js`. -/
def initialState : GuiState where
  gameState := str "playing"
  selected := none
  fen := str "rnbqkbnr/pppppppp/8/8/8/8/PPPPPPPP/RNBQKBNR w KQkq - 0 1"
  playerColour := str "w"
  difficulty := 3
  pieceSet := str "open-chess-font"
  boardTheme := str "dark"
  highlighted := []

/-- The `difficultyScale` lookup object, lines 37–43: keys 1–5 map to
depths 2, 4, 5, 7, 10; any other key yields `undefined`, modelled as
`none`. -/
def difficultyScale (d : Nat) : Option Nat :=
  if d = 1 then some 2
  else if d = 2 then some 4
  else if d = 3 then some 5
  else if d = 4 then some 7
  else if d = 5 then some 10
  else none

/-- `getTurn` (lines 45–47): the second space-separated field of the FEN,
`none` when the FEN has no second field (JS `undefined`). -/
def getTurn (fen : List Char) : Option (List Char) :=
  (splitOnChar ' ' fen)[1]?

/-- The piece-placement field of a FEN: `fen.split(' ')[0]`. -/
def placementField (fen : List Char) : List Char :=
  (splitOnChar ' ' fen).headD []

/-- Piece character rendered at a coordinate (lines 84–97):
`position[row-1][col]` of the parsed grid, with the empty marker `'0'`
meaning no piece.  All rendered coordinates are in range for an 8×8 grid. -/
def pieceAt (fen : List Char) (c : Coord) : Option Char :=
  let ch := ((transformFenToPositionArray fen).getD c.rank.val []).getD c.file.val '0'
  if ch = '0' then none else some ch

/-- The `data-piece-colour` attribute of the piece image on a square
(line 91): lowercase piece letters are `"b"`, others `"w"`; `none` when the
square holds no piece (JS optional chaining yields `undefined`). -/
def pieceColourAttr : Option Char → Option (List Char)
  | none => none
  | some ch => some (if ch.toLower = ch then str "b" else str "w")

/-- `toggleSquareHighlight` (lines 156–158): toggle the
`selected-square` class of a square. -/
def toggleSquareHighlight (hs : List Coord) (c : Coord) : List Coord :=
  if c ∈ hs then hs.erase c else hs ++ [c]

/-- `isValidMove` (lines 160–164): apply the move to a scratch engine
seeded with the current FEN and report whether the piece-placement field
changed. -/
def isValidMove (E : ChessEngineAPI) (fen mv : List Char) : Bool :=
  !(placementField (E.applyMove fen mv) == placementField fen)

/-- Effect of `renderBoard` (lines 60–126) on the modelled state: the board
is rebuilt from scratch (`board.innerHTML = ''`), so every
`selected-square` class disappears.  The display toggling of the game and
game-over elements is presentation and carries no controller state. -/
def renderBoard (st : GuiState) : GuiState :=
  { st with highlighted := [] }

/-- `makeComputerMove` (lines 185–201): posts one search request carrying
the current FEN and the looked-up depth.  The registered one-shot reply
handler is modelled separately as `onWorkerReply`. -/
def makeComputerMove (st : GuiState) : GuiState × List SearchMsg :=
  (st, [{ fen := st.fen, depth := difficultyScale st.difficulty }])

/-- `makeMove` (lines 166–183): apply the move on an engine seeded with the
current FEN, clear the selection (removing its highlight class), replace
the session FEN with the engine's FEN, refresh the game state from the
engine's game-over query, and re-render. -/
def makeMove (E : ChessEngineAPI) (st : GuiState) (mv : List Char) : GuiState :=
  let newFen := E.applyMove st.fen mv
  let hs := match st.selected with
    | some sq => st.highlighted.erase sq
    | none => st.highlighted
  renderBoard { st with
    highlighted := hs
    selected := none
    fen := newFen
    gameState := E.isGameOver newFen }

/-- `handleSquareClick` (lines 128–154), the square-activation handler.
Returns the new state and the messages posted to the worker.  The clicked
square's piece and coordinate are read from the rendered board, which
mirrors the session FEN. -/
def handleSquareClick (E : ChessEngineAPI) (st : GuiState) (c : Coord) :
    GuiState × List SearchMsg :=
  if getTurn st.fen ≠ some st.playerColour then (st, [])
  else
    let piece := pieceAt st.fen c
    match st.selected with
    | none =>
      if piece.isSome then
        ({ st with highlighted := toggleSquareHighlight st.highlighted c
                   selected := some c }, [])
      else (st, [])
    | some ex =>
      let mv := coordStr ex ++ coordStr c
      if isValidMove E st.fen mv then
        makeComputerMove (makeMove E st mv)
      else if coordStr ex = coordStr c then
        ({ st with highlighted := toggleSquareHighlight st.highlighted c }, [])
      else if pieceColourAttr piece = some st.playerColour then
        ({ st with highlighted :=
                     toggleSquareHighlight (toggleSquareHighlight st.highlighted ex) c
                   selected := some c }, [])
      else
        ({ st with highlighted := toggleSquareHighlight st.highlighted ex
                   selected := none }, [])

/-- The worker reply handler registered by `makeComputerMove`
(lines 194–200): a truthy reply (a non-empty move string) is fed to
`makeMove`; a falsy reply (absent, or the empty string) does nothing.  No
message is ever posted from the handler. -/
def onWorkerReply (E : ChessEngineAPI) (st : GuiState) (data : Option (List Char)) :
    GuiState × List SearchMsg :=
  match data with
  | some mv => if mv = [] then (st, []) else (makeMove E st mv, [])
  | none => (st, [])

/-- Truthiness update used by the settings handler (lines 24–28): a field
is replaced only when the submitted value is present and non-empty. -/
def keepIf (old : List Char) : Option (List Char) → List Char
  | some v => if v = [] then old else v
  | none => old

/-- The settings `submit` handler (lines 18–35): update the configured
fields, re-render, and fire an initial computer move when the player is
configured as black. -/
def applySettings (st : GuiState) (pc : Option (List Char)) (diff : Option Nat)
    (fenv ps bt : Option (List Char)) : GuiState × List SearchMsg :=
  let st1 := renderBoard { st with
    playerColour := keepIf st.playerColour pc
    difficulty := match diff with | some d => d | none => st.difficulty
    fen := keepIf st.fen fenv
    pieceSet := keepIf st.pieceSet ps
    boardTheme := keepIf st.boardTheme bt }
  if st1.playerColour = str "b" then makeComputerMove st1 else (st1, [])

/-- States of the GUI reachable through the controller's event handlers,
for a fixed engine collaborator: the initial state, a settings submission,
a square click, and a worker reply.  Replies model messages from the chess
worker; the application posts at most one outstanding request at a time. -/
inductive Reachable (E : ChessEngineAPI) : GuiState → Prop
  | init : Reachable E initialState
  | settings (st : GuiState) (pc : Option (List Char)) (diff : Option Nat)
      (fenv ps bt : Option (List Char)) :
      Reachable E st → Reachable E (applySettings st pc diff fenv ps bt).1
  | click (st : GuiState) (c : Coord) :
      Reachable E st → Reachable E (handleSquareClick E st c).1
  | reply (st : GuiState) (d : Option (List Char)) :
      Reachable E st → Reachable E (onWorkerReply E st d).1

/-- Engine that ignores every move and reports a running game; a correct
engine behaves like this on a move it rejects. -/
def idEngine : ChessEngineAPI where
  applyMove := fun fen _ => fen
  isGameOver := fun _ => str "playing"

/-- Square e1 (file e = 4, rank 1 = row 0). -/
def cE1 : Coord := ⟨4, 0⟩

/-- Square e2. -/
def cE2 : Coord := ⟨4, 1⟩

/-- Square e4. -/
def cE4 : Coord := ⟨4, 3⟩

/-- Square f2. -/
def cF2 : Coord := ⟨5, 1⟩

/-- Square f3. -/
def cF3 : Coord := ⟨5, 2⟩

/-- Square g2. -/
def cG2 : Coord := ⟨6, 1⟩

/-- Square g4. -/
def cG4 : Coord := ⟨6, 3⟩

/-- Position after 1. f3 in the fool's mate game. -/
def fenAfterF3 : List Char :=
  str "rnbqkbnr/pppppppp/8/8/8/5P2/PPPPP1PP/RNBQKBNR b KQkq - 0 1"

/-- Position after 1. f3 e5. -/
def fenAfterE5 : List Char :=
  str "rnbqkbnr/pppp1ppp/8/4p3/8/5P2/PPPPP1PP/RNBQKBNR w KQkq e6 0 2"

/-- Position after 1. f3 e5 2. g4. -/
def fenAfterG4 : List Char :=
  str "rnbqkbnr/pppp1ppp/8/4p3/6P1/5P2/PPPPP1P1/RNBQKBNR b KQkq g3 0 2"

/-- Position after 1. f3 e5 2. g4 Qh4#, checkmate with white to move. -/
def fenMate : List Char :=
  str "rnb1kbnr/pppp1ppp/8/4p3/6Pq/5P2/PPPPP1P1/RNBQKBNR w KQkq - 1 3"

/-- Concrete engine behaviour along the fool's mate game
1. f3 e5 2. g4 Qh4#: the four moves of the game are applied, every other
move is ignored, and the final position is reported as checkmate. -/
def foolsMateEngine : ChessEngineAPI where
  applyMove := fun fen mv =>
    if fen == initialState.fen && mv == str "f2f3" then fenAfterF3
    else if fen == fenAfterF3 && mv == str "e7e5" then fenAfterE5
    else if fen == fenAfterE5 && mv == str "g2g4" then fenAfterG4
    else if fen == fenAfterG4 && mv == str "d8h4" then fenMate
    else fen
  isGameOver := fun fen => if fen == fenMate then str "checkmate" else str "playing"

/-- The session state after the fool's mate game: checkmated position with
the (human) white player to move. -/
def sMate : GuiState := { initialState with fen := fenMate, gameState := str "checkmate" }

/-- Engine that answers every move with a fixed FEN whose piece placement
is unchanged but whose side-to-move field differs: the legality proxy
classifies every move as invalid under it. -/
def flipSideEngine : ChessEngineAPI where
  applyMove := fun _ _ => str "8/8/8/8/8/8/8/8 b - - 0 1"
  isGameOver := fun _ => str "playing"

/-- Session holding an empty board with white to move. -/
def emptyBoardState : GuiState := { initialState with fen := str "8/8/8/8/8/8/8/8 w - - 0 1" }

/-- Engine that answers every move with the checkmated fool's mate
position. -/
def mateEngine : ChessEngineAPI where
  applyMove := fun _ _ => fenMate
  isGameOver := fun fen => if fen == fenMate then str "checkmate" else str "playing"

/-- Initial position with the square e2 armed (and highlighted), as after
one click on e2. -/
def armedE2 : GuiState := { initialState with selected := some cE2, highlighted := [cE2] }

/-- Initial position but with the player configured as black, so the white
side to move is the opponent's. -/
def blackPlayerState : GuiState := { initialState with playerColour := str "b" }

/-- Session configured with a difficulty outside the lookup table. -/
def difficulty7State : GuiState := { initialState with difficulty := 7 }

/-- The three terminal values of the `gameState` field (line 9 and
lines 109–119 of `src/gui/index.js`). -/
def terminalStatuses : List (List Char) := [str "checkmate", str "stalemate", str "50-move"]

/-- Digit character for a small count, for re-collapsing empty runs. -/
def digitChar (n : Nat) : Char := (str "0123456789").getD n '0'

/-- Joining worker inverse to `splitOnChar`: interleave the separator
between the pieces. -/
def intercalateChar (sep : Char) : List (List Char) → List Char
  | [] => []
  | [r] => r
  | r :: rs => r ++ sep :: intercalateChar sep rs

/-- Re-collapse a rank, carrying the length of the current run of empty
markers: a maximal run of `n` copies of `'0'` becomes the single digit
`n`, every other character is kept. -/
def collapseAux : List Char → Nat → List Char
  | [], 0 => []
  | [], n + 1 => [digitChar (n + 1)]
  | c :: cs, n =>
    if c = '0' then collapseAux cs (n + 1)
    else (if n = 0 then [] else [digitChar n]) ++ c :: collapseAux cs 0

/-- Re-collapsing of one expanded rank, the inverse direction of the
round-trip property stated by the spec (§8): runs of empty markers become
digits again. -/
def collapseRow (r : List Char) : List Char := collapseAux r 0

/-- Serialization direction of the spec's round-trip property (§8):
re-collapse every rank of the parsed grid and reverse the rank order back
to wire order, joining with the rank separator. -/
def serializeGrid (g : List (List Char)) : List Char :=
  intercalateChar '/' ((g.map collapseRow).reverse)

/-- The nine digit characters that may encode an empty run inside a FEN
rank. -/
def digits19 : List Char := str "123456789"

/-- Whether a rank does not begin with a digit character. -/
def headNotDigit : List Char → Bool
  | [] => true
  | c :: _ => !c.isDigit

/-- Whether a character list does not begin with the empty marker. -/
def headNotZero : List Char → Bool
  | [] => true
  | c :: _ => c != '0'

/-- A rank on which expansion and re-collapsing invert each other: every
digit is one of 1–9 (no digit 0) and no digit is immediately followed by
another digit (empty runs are maximally collapsed). -/
def goodRank : List Char → Bool
  | [] => true
  | c :: cs => (!c.isDigit || (decide (c ∈ digits19) && headNotDigit cs)) && goodRank cs

/-- Number of board cells a rank accounts for: a digit counts for its
value, any other character for one cell. -/
def cellCount : List Char → Nat
  | [] => 0
  | c :: cs => (if c.isDigit then digitVal c else 1) + cellCount cs

/-- Syntactic validity of a position field exactly as the claim defines
it: eight ranks separated by the rank separator, each rank's digits and
letters summing to eight cells. -/
def claimValidField (f : List Char) : Bool :=
  ((splitOnChar '/' f).length == 8) && (splitOnChar '/' f).all (fun r => cellCount r == 8)

/-- Claim C1 (code bug): with the player (white) to move in the initial
position, clicking e2 arms it, and clicking e2 again removes the
`selected-square` highlight but leaves `state.selectedSquare` set to e2:
the selection does not return to Idle.  Lines 143–144 of
`src/gui/index.js` toggle the highlight without clearing the reference. -/
theorem C1_reclick_leaves_square_armed :
    ((handleSquareClick idEngine (handleSquareClick idEngine initialState cE2).1 cE2).1).selected
        = some cE2 ∧
    ((handleSquareClick idEngine (handleSquareClick idEngine initialState cE2).1 cE2).1).highlighted
        = [] := by
  decide

/-- Claim C2, counterexample: a reachable state whose status is terminal
(checkmate delivered by the computer's reply, so the side to move equals
the player's colour) in which a square activation is not ignored — it arms
the clicked square and thereby changes the session state. -/
theorem C2_terminal_activation_changes_state :
    Reachable foolsMateEngine sMate ∧ sMate.gameState ∈ terminalStatuses ∧
    (handleSquareClick foolsMateEngine sMate cE1).1 ≠ sMate := by
  refine ⟨?_, by decide, by decide⟩
  have h0 : Reachable foolsMateEngine initialState := Reachable.init
  have h1 := Reachable.click _ cF2 h0
  have h2 := Reachable.click _ cF3 h1
  have h3 := Reachable.reply _ (some (str "e7e5")) h2
  have h4 := Reachable.click _ cG2 h3
  have h5 := Reachable.click _ cG4 h4
  have h6 := Reachable.reply _ (some (str "d8h4")) h5
  have he : (onWorkerReply foolsMateEngine
      (handleSquareClick foolsMateEngine
        (handleSquareClick foolsMateEngine
          (onWorkerReply foolsMateEngine
            (handleSquareClick foolsMateEngine
              (handleSquareClick foolsMateEngine initialState cF2).1 cF3).1
            (some (str "e7e5"))).1
          cG2).1 cG4).1
      (some (str "d8h4"))).1 = sMate := by decide
  rwa [he] at h6

/-- Claim C2 as amended: in a terminal state a square activation is
ignored entirely whenever the side to move differs from the configured
player colour — the handler's only guard is the turn check, so a terminal
state whose side to move equals the player colour still processes
activations. -/
theorem C2_terminal_ignored_on_opponent_turn (E : ChessEngineAPI) (st : GuiState) (c : Coord)
    (_hterm : st.gameState ∈ terminalStatuses)
    (hturn : getTurn st.fen ≠ some st.playerColour) :
    handleSquareClick E st c = (st, []) := by
  unfold handleSquareClick
  rw [if_pos hturn]

/-- Witness for the amended claim C2, at a checkmate state whose side to
move (white) differs from the configured player colour (black). -/
theorem C2_terminal_ignored_witness :
    ({ blackPlayerState with gameState := str "checkmate" } : GuiState).gameState
        ∈ terminalStatuses ∧
    getTurn ({ blackPlayerState with gameState := str "checkmate" } : GuiState).fen
        ≠ some ({ blackPlayerState with gameState := str "checkmate" } : GuiState).playerColour ∧
    handleSquareClick idEngine { blackPlayerState with gameState := str "checkmate" } cE2
        = ({ blackPlayerState with gameState := str "checkmate" }, []) :=
  ⟨by decide, by decide,
    C2_terminal_ignored_on_opponent_turn idEngine
      { blackPlayerState with gameState := str "checkmate" } cE2 (by decide) (by decide)⟩

/-- Claim C3, counterexample: a present computer-move reply whose engine
result leaves the piece placement unchanged (the legality proxy classifies
it invalid) is nevertheless applied — the session FEN changes, so the
reply does not go through the validity check of the human path. -/
theorem C3_reply_bypasses_validity_check :
    isValidMove flipSideEngine emptyBoardState.fen (str "a7a6") = false ∧
    (onWorkerReply flipSideEngine emptyBoardState (some (str "a7a6"))).1.fen
        ≠ emptyBoardState.fen := by
  decide

/-- Claim C3 as amended: a present (non-empty) reply move is fed directly
to `makeMove` with no legality-proxy check — the session FEN is
unconditionally replaced by the engine's resulting FEN and the status
refreshed from the engine, while player colour and difficulty are kept. -/
theorem C3_reply_applied_directly (E : ChessEngineAPI) (st : GuiState) (mv : List Char)
    (h : mv ≠ []) :
    onWorkerReply E st (some mv) = (makeMove E st mv, []) ∧
    (makeMove E st mv).fen = E.applyMove st.fen mv ∧
    (makeMove E st mv).gameState = E.isGameOver (E.applyMove st.fen mv) ∧
    (makeMove E st mv).selected = none ∧
    (makeMove E st mv).playerColour = st.playerColour ∧
    (makeMove E st mv).difficulty = st.difficulty := by
  refine ⟨?_, rfl, rfl, rfl, rfl, rfl⟩
  simp [onWorkerReply, h]

/-- Witness for the amended claim C3 at a concrete non-empty reply. -/
theorem C3_reply_applied_directly_witness :
    onWorkerReply idEngine initialState (some (str "e7e5"))
        = (makeMove idEngine initialState (str "e7e5"), []) ∧
    (makeMove idEngine initialState (str "e7e5")).fen
        = idEngine.applyMove initialState.fen (str "e7e5") ∧
    (makeMove idEngine initialState (str "e7e5")).gameState
        = idEngine.isGameOver (idEngine.applyMove initialState.fen (str "e7e5")) ∧
    (makeMove idEngine initialState (str "e7e5")).selected = none ∧
    (makeMove idEngine initialState (str "e7e5")).playerColour = initialState.playerColour ∧
    (makeMove idEngine initialState (str "e7e5")).difficulty = initialState.difficulty :=
  C3_reply_applied_directly idEngine initialState (str "e7e5") (by decide)

/-- Claim C4, counterexample: a committed human move whose resulting status
is checkmate (terminal) still posts a search request to the worker. -/
theorem C4_request_sent_after_terminal_commit :
    (handleSquareClick mateEngine armedE2 cE4).1.gameState ∈ terminalStatuses ∧
    (handleSquareClick mateEngine armedE2 cE4).2 = [{ fen := fenMate, depth := some 5 }] := by
  decide

/-- Claim C4 as amended: every committed human move invokes
`makeComputerMove` unconditionally — one search request carrying the
post-commit FEN and the mapped depth is posted regardless of the
post-commit side to move or status — and a committed computer reply never
posts a request. -/
theorem C4_commit_always_requests (E : ChessEngineAPI) (st : GuiState) (c ex : Coord)
    (hturn : getTurn st.fen = some st.playerColour)
    (hsel : st.selected = some ex)
    (hval : isValidMove E st.fen (coordStr ex ++ coordStr c) = true) :
    (handleSquareClick E st c).2 =
      [{ fen := E.applyMove st.fen (coordStr ex ++ coordStr c),
         depth := difficultyScale st.difficulty }] ∧
    ∀ (st2 : GuiState) (d : Option (List Char)), (onWorkerReply E st2 d).2 = [] := by
  constructor
  · unfold handleSquareClick
    rw [if_neg (by simp [hturn])]
    simp [hsel, hval, makeComputerMove, makeMove, renderBoard]
  · intro st2 d
    cases d with
    | none => rfl
    | some mv => by_cases h : mv = [] <;> simp [onWorkerReply, h]

/-- Witness for the amended claim C4 at a concrete committed move. -/
theorem C4_commit_always_requests_witness :
    (handleSquareClick mateEngine armedE2 cE4).2 =
      [{ fen := mateEngine.applyMove armedE2.fen (coordStr cE2 ++ coordStr cE4),
         depth := difficultyScale armedE2.difficulty }] :=
  (C4_commit_always_requests mateEngine armedE2 cE4 cE2 (by decide) (by decide) (by decide)).1

/-- Claim C5: an armed move attempt that the legality proxy rejects
(unchanged piece placement) leaves every GameSession field — position,
status, player colour and difficulty — unchanged, whatever the selection
branch taken. -/
theorem C5_rejected_attempt_preserves_session (E : ChessEngineAPI) (st : GuiState) (c ex : Coord)
    (hsel : st.selected = some ex)
    (hval : isValidMove E st.fen (coordStr ex ++ coordStr c) = false) :
    (handleSquareClick E st c).1.fen = st.fen ∧
    (handleSquareClick E st c).1.gameState = st.gameState ∧
    (handleSquareClick E st c).1.playerColour = st.playerColour ∧
    (handleSquareClick E st c).1.difficulty = st.difficulty := by
  unfold handleSquareClick
  by_cases ht : getTurn st.fen ≠ some st.playerColour
  · rw [if_pos ht]
    exact ⟨rfl, rfl, rfl, rfl⟩
  · rw [if_neg ht]
    simp only [hsel]
    rw [if_neg (by simp [hval])]
    split_ifs <;> exact ⟨rfl, rfl, rfl, rfl⟩

/-- Witness for claim C5: reclicking an armed square under an engine that
ignores the move touches no GameSession field. -/
theorem C5_rejected_attempt_witness :
    (handleSquareClick idEngine armedE2 cE4).1.fen = armedE2.fen ∧
    (handleSquareClick idEngine armedE2 cE4).1.gameState = armedE2.gameState ∧
    (handleSquareClick idEngine armedE2 cE4).1.playerColour = armedE2.playerColour ∧
    (handleSquareClick idEngine armedE2 cE4).1.difficulty = armedE2.difficulty :=
  C5_rejected_attempt_preserves_session idEngine armedE2 cE4 cE2 (by decide) (by decide)

/-- Claim C6: when the side to move differs from the configured player
colour, a square activation returns immediately — state, selection and
message list are all untouched. -/
theorem C6_opponent_turn_noop (E : ChessEngineAPI) (st : GuiState) (c : Coord)
    (h : getTurn st.fen ≠ some st.playerColour) :
    handleSquareClick E st c = (st, []) := by
  unfold handleSquareClick
  rw [if_pos h]

/-- Witness for claim C6: with the player configured as black and white to
move, a click on e2 is a complete no-op. -/
theorem C6_opponent_turn_noop_witness :
    handleSquareClick idEngine blackPlayerState cE2 = (blackPlayerState, []) :=
  C6_opponent_turn_noop idEngine blackPlayerState cE2 (by decide)

/-- Claim C8: every search request posted by `makeComputerMove` carries the
session's current FEN, and the difficulty table maps 1, 2, 3, 4, 5 to
depths 2, 4, 5, 7, 10 respectively. -/
theorem C8_difficulty_depth_mapping :
    (∀ st : GuiState,
      (makeComputerMove st).2 = [{ fen := st.fen, depth := difficultyScale st.difficulty }]) ∧
    difficultyScale 1 = some 2 ∧ difficultyScale 2 = some 4 ∧ difficultyScale 3 = some 5 ∧
    difficultyScale 4 = some 7 ∧ difficultyScale 5 = some 10 :=
  ⟨fun _ => rfl, rfl, rfl, rfl, rfl, rfl⟩

/-- Claim C9: an absent or empty worker reply is silently dropped — the
state is unchanged and no message is posted. -/
theorem C9_falsy_reply_dropped :
    ∀ (E : ChessEngineAPI) (st : GuiState),
      onWorkerReply E st none = (st, []) ∧ onWorkerReply E st (some []) = (st, []) :=
  fun _ _ => ⟨rfl, rfl⟩

/-- Claim C10: a difficulty outside the table's domain still posts exactly
one search request, whose depth is the absent value produced by the failed
lookup. -/
theorem C10_unknown_difficulty_requests_absent_depth (st : GuiState)
    (h : st.difficulty ∉ ([1, 2, 3, 4, 5] : List Nat)) :
    (makeComputerMove st).2 = [{ fen := st.fen, depth := none }] ∧
    difficultyScale st.difficulty = none := by
  simp only [List.mem_cons, List.not_mem_nil, or_false, not_or] at h
  obtain ⟨h1, h2, h3, h4, h5⟩ := h
  have hs : difficultyScale st.difficulty = none := by
    simp [difficultyScale, h1, h2, h3, h4, h5]
  exact ⟨by simp [makeComputerMove, hs], hs⟩

/-- Witness for claim C10 at difficulty 7. -/
theorem C10_unknown_difficulty_witness :
    (makeComputerMove difficulty7State).2 = [{ fen := difficulty7State.fen, depth := none }] ∧
    difficultyScale difficulty7State.difficulty = none :=
  C10_unknown_difficulty_requests_absent_depth difficulty7State (by decide)

/-- Splitting always yields at least one piece. -/
theorem splitOnCharAux_ne_nil (sep : Char) (s acc : List Char) :
    splitOnCharAux sep s acc ≠ [] := by
  induction s generalizing acc with
  | nil => simp [splitOnCharAux]
  | cons c cs ih =>
    by_cases h : c = sep <;> simp [splitOnCharAux, h, ih]

/-- Unfolding of the joining worker on a two-or-more-element list. -/
theorem intercalateChar_cons_cons (sep : Char) (a b : List Char) (t : List (List Char)) :
    intercalateChar sep (a :: b :: t) = a ++ sep :: intercalateChar sep (b :: t) := rfl

/-- Joining the pieces of the splitting worker restores the input after
the pending accumulator. -/
theorem intercalateChar_splitOnCharAux (sep : Char) (s : List Char) :
    ∀ acc, intercalateChar sep (splitOnCharAux sep s acc) = acc.reverse ++ s := by
  induction s with
  | nil => intro acc; simp [splitOnCharAux, intercalateChar]
  | cons c cs ih =>
    intro acc
    by_cases h : c = sep
    · subst h
      obtain ⟨b, t, hbt⟩ := List.exists_cons_of_ne_nil (splitOnCharAux_ne_nil c cs [])
      rw [splitOnCharAux, if_pos rfl, hbt, intercalateChar_cons_cons, ← hbt, ih []]
      simp
    · simp only [splitOnCharAux, if_neg h]
      rw [ih (c :: acc)]
      simp

/-- Joining with the separator is a left inverse of splitting on it. -/
theorem intercalateChar_splitOnChar (sep : Char) (s : List Char) :
    intercalateChar sep (splitOnChar sep s) = s := by
  simpa using intercalateChar_splitOnCharAux sep s []

/-- A run of empty markers is absorbed into the run counter. -/
theorem collapseAux_replicate (n : Nat) :
    ∀ (rest : List Char) (m : Nat),
      collapseAux (List.replicate n '0' ++ rest) m = collapseAux rest (m + n) := by
  induction n with
  | zero => intro rest m; simp
  | succ k ih =>
    intro rest m
    rw [List.replicate_succ, List.cons_append, collapseAux, if_pos rfl, ih rest (m + 1)]
    have hmk : m + 1 + k = m + (k + 1) := by omega
    rw [hmk]

/-- A pending non-empty run is emitted as its digit when the rest does not
begin with an empty marker. -/
theorem collapseAux_shift (t : List Char) (d : Nat) (hd : d ≠ 0)
    (ht : headNotZero t = true) :
    collapseAux t d = digitChar d :: collapseAux t 0 := by
  cases t with
  | nil =>
    cases d with
    | zero => exact absurd rfl hd
    | succ k => rfl
  | cons x t2 =>
    have hx : ¬(x = '0') := by simpa [headNotZero] using ht
    simp [collapseAux, hx, hd]

/-- The nine admissible digit characters are digits, denote a positive
count, and are reproduced by `digitChar` from their value. -/
theorem digits19_facts :
    ∀ c ∈ digits19, c.isDigit = true ∧ 1 ≤ digitVal c ∧ digitChar (digitVal c) = c ∧ c ≠ '0' := by
  decide

/-- On a good rank, re-collapsing inverts expansion. -/
theorem collapseRow_expandRow : ∀ r : List Char, goodRank r = true → collapseRow (expandRow r) = r := by
  intro r
  induction r with
  | nil => intro _; rfl
  | cons c cs ih =>
    intro h
    simp only [goodRank, Bool.and_eq_true, Bool.or_eq_true] at h
    obtain ⟨h1, hrest⟩ := h
    have ih2 := ih hrest
    simp only [collapseRow] at ih2 ⊢
    by_cases hd : c.isDigit
    · have hmem : c ∈ digits19 := by
        rcases h1 with h1 | ⟨hc, _⟩
        · rw [hd] at h1; simp at h1
        · exact of_decide_eq_true hc
      have hhead : headNotDigit cs = true := by
        rcases h1 with h1 | ⟨_, hh⟩
        · rw [hd] at h1; simp at h1
        · exact hh
      obtain ⟨_, hge, hchar, _⟩ := digits19_facts c hmem
      have hE : headNotZero (expandRow cs) = true := by
        cases cs with
        | nil => rfl
        | cons c2 cs2 =>
          have h2 : c2.isDigit = false := by simpa [headNotDigit] using hhead
          have h20 : ¬(c2 = '0') := by
            intro e; rw [e] at h2; exact absurd h2 (by decide)
          simp [expandRow, h2, headNotZero, h20]
      have hexp : expandRow (c :: cs) = List.replicate (digitVal c) '0' ++ expandRow cs := by
        simp [expandRow, hd]
      have hd0 : digitVal c ≠ 0 := by omega
      rw [hexp, collapseAux_replicate (digitVal c) (expandRow cs) 0, Nat.zero_add,
        collapseAux_shift _ _ hd0 hE, hchar, ih2]
    · have hne0 : ¬(c = '0') := by
        intro e; rw [e] at hd; exact hd (by decide)
      have hexp : expandRow (c :: cs) = c :: expandRow cs := by
        simp [expandRow, hd]
      rw [hexp, collapseAux, if_neg hne0, if_pos rfl, List.nil_append, ih2]

/-- Claim C7 as amended: for a position field that is valid in the claim's
sense and in which, additionally, every digit is between 1 and 9 and no
two digits are adjacent (each empty run is encoded by a single digit),
parsing and then re-collapsing with rank order reversed reproduces the
field exactly. -/
theorem C7_parse_round_trip (f : List Char)
    (_hvalid : claimValidField f = true)
    (hgood : (splitOnChar '/' f).all goodRank = true) :
    serializeGrid (parsePositionField f) = f := by
  unfold serializeGrid parsePositionField
  rw [List.map_reverse, List.reverse_reverse, List.map_map]
  have hmaps : (splitOnChar '/' f).map (collapseRow ∘ expandRow) = (splitOnChar '/' f).map id := by
    apply List.map_congr_left
    intro a ha
    exact collapseRow_expandRow a (List.all_eq_true.mp hgood a ha)
  rw [hmaps, List.map_id]
  exact intercalateChar_splitOnChar '/' f

/-- Claim C7, counterexample: the field with first rank `44` is valid in
the claim's sense (eight ranks, each summing to eight cells), but the
round trip collapses the two adjacent digits into the single digit `8`,
so the original field is not reproduced. -/
theorem C7_adjacent_digits_break_round_trip :
    claimValidField (str "44/8/8/8/8/8/8/8") = true ∧
    serializeGrid (parsePositionField (str "44/8/8/8/8/8/8/8")) ≠ str "44/8/8/8/8/8/8/8" := by
  decide

/-- Witness for the amended claim C7 at the initial position field. -/
theorem C7_parse_round_trip_witness :
    claimValidField (str "rnbqkbnr/pppppppp/8/8/8/8/PPPPPPPP/RNBQKBNR") = true ∧
    (splitOnChar '/' (str "rnbqkbnr/pppppppp/8/8/8/8/PPPPPPPP/RNBQKBNR")).all goodRank = true ∧
    serializeGrid (parsePositionField (str "rnbqkbnr/pppppppp/8/8/8/8/PPPPPPPP/RNBQKBNR"))
        = str "rnbqkbnr/pppppppp/8/8/8/8/PPPPPPPP/RNBQKBNR" :=
  ⟨by decide, by decide, C7_parse_round_trip _ (by decide) (by decide)⟩
